import Mathlib

/-!
Verification of the docwriter repository's section parser
(`server.js`: `parseAIResponse`, `parseStepByStepResponse`) and document
store (`backend/services/documentStorage.js`, `backend/routes/userRoutes.js`).

JavaScript strings are modelled as Lean `String`s; the JS string methods
used by the code (`split`, `trim`, template interpolation, regex
character-class replacement) are modelled by structurally recursive
functions over `String.data` so that every definition evaluates inside the
kernel.
-/

namespace DocWriter

/-! ## JS string primitives -/

/-- Does the character list begin with the given separator characters? -/
def startsWithSep : List Char → List Char → Bool
  | [], _ => true
  | _ :: _, [] => false
  | p :: ps, c :: cs => p == c && startsWithSep ps cs

/-- Worker for JS `String.prototype.split` with a non-empty string separator.
`fuel` bounds the recursion; callers pass `rest.length + 1`, which is enough
because every step consumes at least one character. `acc` holds the current
field in reverse. -/
def jsSplitChars (sep : List Char) : Nat → List Char → List Char → List (List Char)
  | 0, acc, rest => [acc.reverse ++ rest]
  | _ + 1, acc, [] => [acc.reverse]
  | fuel + 1, acc, c :: cs =>
    if startsWithSep sep (c :: cs) then
      acc.reverse :: jsSplitChars sep fuel [] (List.drop (sep.length - 1) cs)
    else
      jsSplitChars sep fuel (c :: acc) cs

/-- JS `s.split(sep)` for a non-empty string separator. -/
def jsSplit (sep s : String) : List String :=
  (jsSplitChars sep.data (s.data.length + 1) [] s.data).map String.mk

/-- JS `s.trim()`: drop whitespace from both ends. -/
def jsTrimChars (l : List Char) : List Char :=
  ((l.dropWhile Char.isWhitespace).reverse.dropWhile Char.isWhitespace).reverse

/-- JS `s.trim()`. -/
def jsTrim (s : String) : String :=
  String.mk (jsTrimChars s.data)

/-- Substring test (used only to state claims about placeholder shapes and
path components). -/
def containsSeg (needle : List Char) : List Char → Bool
  | [] => needle.isEmpty
  | c :: t => startsWithSep needle (c :: t) || containsSeg needle t

/-- Does `hay` contain `needle` as a contiguous substring? -/
def strContains (needle hay : String) : Bool :=
  containsSeg needle.data hay.data

/-! ## Section parser (`server.js`) -/

/-- The six section keys filled by `parseAIResponse` for the
analytical-report (RCA) shape. -/
structure RcaSections where
  initial_findings : String
  executive_summary : String
  timeline_events : String
  risk_impact : String
  resolution_actions : String
  lessons_learned : String
deriving Repr, DecidableEq

/-- The five section keys filled by `parseStepByStepResponse` for the
instructional-guide shape. -/
structure GuideSections where
  guide_overview : String
  target_audience : String
  prerequisites : String
  steps_content : String
  conclusion : String
deriving Repr, DecidableEq

/-- The RCA section values in their fixed template order. -/
def RcaSections.sectionList (s : RcaSections) : List String :=
  [s.initial_findings, s.executive_summary, s.timeline_events,
   s.risk_impact, s.resolution_actions, s.lessons_learned]

/-- The guide section values in their fixed template order. -/
def GuideSections.sectionList (s : GuideSections) : List String :=
  [s.guide_overview, s.target_audience, s.prerequisites,
   s.steps_content, s.conclusion]

/-- JS `x ? x.trim() : ''` — the empty string is falsy. -/
def trimOrEmpty (s : String) : String :=
  if s = "" then "" else jsTrim s

/-- `content.split('\n\n').filter(p => p.trim())` from the fallback branch of
`parseAIResponse`. -/
def paragraphSplit (content : String) : List String :=
  (jsSplit "\n\n" content).filter (fun p => !(jsTrim p == ""))

/-- The last-resort branch of `parseAIResponse`: the whole content goes to
the first key, the rest get fixed placeholder strings. -/
def rcaTotalFallback (content : String) : RcaSections :=
  { initial_findings := content
    executive_summary := "Executive summary not properly parsed"
    timeline_events := "Timeline not properly parsed"
    risk_impact := "Risk assessment not properly parsed"
    resolution_actions := "Resolution actions not properly parsed"
    lessons_learned := "Lessons learned not properly parsed" }

/-- The `else` branch of `parseAIResponse`: paragraph fallback when at least
six non-blank paragraphs exist, otherwise the total fallback. -/
def rcaFallback (content : String) : RcaSections :=
  let paragraphs := paragraphSplit content
  if 6 ≤ paragraphs.length then
    { initial_findings := paragraphs.getD 0 ""
      executive_summary := paragraphs.getD 1 ""
      timeline_events := paragraphs.getD 2 ""
      risk_impact := paragraphs.getD 3 ""
      resolution_actions := paragraphs.getD 4 ""
      lessons_learned := paragraphs.getD 5 "" }
  else
    rcaTotalFallback content

/-- `parseAIResponse` from `server.js`. -/
def parseAIResponse (content : String) : RcaSections :=
  let parts := jsSplit "---" content
  if 6 ≤ parts.length then
    { initial_findings := trimOrEmpty (parts.getD 0 "")
      executive_summary := trimOrEmpty (parts.getD 1 "")
      timeline_events := trimOrEmpty (parts.getD 2 "")
      risk_impact := trimOrEmpty (parts.getD 3 "")
      resolution_actions := trimOrEmpty (parts.getD 4 "")
      lessons_learned := trimOrEmpty (parts.getD 5 "") }
  else
    rcaFallback content

/-- The fallback branch of `parseStepByStepResponse`: the whole content goes
to the first key, the rest get fixed per-key strings. -/
def guideFallback (content : String) : GuideSections :=
  { guide_overview := content
    target_audience := "General users"
    prerequisites := "No specific prerequisites"
    steps_content := "Steps not properly parsed"
    conclusion := "Conclusion not available" }

/-- `parseStepByStepResponse` from `server.js`. -/
def parseStepByStepResponse (content : String) : GuideSections :=
  let parts := jsSplit "---" content
  if 5 ≤ parts.length then
    { guide_overview := trimOrEmpty (parts.getD 0 "")
      target_audience := trimOrEmpty (parts.getD 1 "")
      prerequisites := trimOrEmpty (parts.getD 2 "")
      steps_content := trimOrEmpty (parts.getD 3 "")
      conclusion := trimOrEmpty (parts.getD 4 "") }
  else
    guideFallback content

/-- The parser ladder as the spec sentence behind C1 words it: tier-1 strict
split is used exactly when the part count EQUALS the required section count.
Stated only to be compared with `parseAIResponse`. -/
def parseAIResponseClaimed (content : String) : RcaSections :=
  let parts := jsSplit "---" content
  if parts.length = 6 then
    { initial_findings := trimOrEmpty (parts.getD 0 "")
      executive_summary := trimOrEmpty (parts.getD 1 "")
      timeline_events := trimOrEmpty (parts.getD 2 "")
      risk_impact := trimOrEmpty (parts.getD 3 "")
      resolution_actions := trimOrEmpty (parts.getD 4 "")
      lessons_learned := trimOrEmpty (parts.getD 5 "") }
  else
    rcaFallback content

/-! ## Storage paths (`backend/services/documentStorage.js`) -/

/-- The character class `[a-zA-Z0-9@.-]` of `getUserStoragePath`'s
sanitizing regex. -/
def emailAllowedChar (c : Char) : Bool :=
  c.isAlpha || c.isDigit || c == '@' || c == '.' || c == '-'

/-- `userEmail.replace(/[^a-zA-Z0-9@.-]/g, '_')`: every character outside
the class is replaced by an underscore. -/
def sanitizeEmail (userEmail : String) : String :=
  String.mk (userEmail.data.map (fun c => if emailAllowedChar c then c else '_'))

/-- `getUserStoragePath`: `path.join(this.baseStoragePath, sanitizedEmail)`. -/
def getUserStoragePath (baseStoragePath userEmail : String) : String :=
  baseStoragePath ++ "/" ++ sanitizeEmail userEmail

/-- The character class `[a-zA-Z0-9\s-]` kept by the first replace of
`generateDocumentPath`'s title sanitization. -/
def titleAllowedChar (c : Char) : Bool :=
  c.isAlpha || c.isDigit || c.isWhitespace || c == '-'

/-- `.replace(/\s+/g, '_')`: each maximal run of whitespace becomes a single
underscore. The boolean argument records whether the previous character was
part of a whitespace run. -/
def collapseWhitespaceAux : Bool → List Char → List Char
  | _, [] => []
  | prevWs, c :: cs =>
    if c.isWhitespace then
      if prevWs then collapseWhitespaceAux true cs
      else '_' :: collapseWhitespaceAux true cs
    else c :: collapseWhitespaceAux false cs

/-- `title.replace(/[^a-zA-Z0-9\s-]/g, '').replace(/\s+/g, '_')` from
`generateDocumentPath`. -/
def safeTitle (title : String) : String :=
  String.mk (collapseWhitespaceAux false (title.data.filter titleAllowedChar))

/-- `generateDocumentPath`. The wall clock is injected: `year` and `month`
come from `new Date()` (month already padded to two digits) and `timestamp`
is `Date.now()`. -/
def generateDocumentPath (baseStoragePath userEmail templateType title format year month : String)
    (timestamp : Nat) : String :=
  getUserStoragePath baseStoragePath userEmail ++ "/documents/" ++ year ++ "/" ++ month
    ++ "/" ++ toString timestamp ++ "_" ++ templateType ++ "_" ++ safeTitle title
    ++ "." ++ format

/-! ## Relational state (`documents`, `document_tags`, `ai_generation_logs`) -/

/-- One row of the `documents` table. -/
structure DocRow where
  id : String
  user_id : String
  title : String
  template_type : String
  file_path : String
  content_preview : String
  file_size : Nat
  file_format : String
  is_favorite : Bool
  is_archived : Bool
  created_at : Nat
  updated_at : Nat
deriving Repr, DecidableEq

/-- One row of the `document_tags` table. -/
structure TagRow where
  id : String
  document_id : String
  tag_name : String
deriving Repr, DecidableEq

/-- One row of the `ai_generation_logs` table (the fields the claims
observe). -/
structure LogRow where
  id : String
  user_id : String
  document_id : Option String
  template_type : String
  success : Bool
deriving Repr, DecidableEq

/-- The persistent state seen by the document store: the on-disk files
(path and byte size) and the three tables. -/
structure DB where
  files : List (String × Nat)
  documents : List DocRow
  document_tags : List TagRow
  ai_generation_logs : List LogRow
deriving Repr, DecidableEq

/-- The empty store. -/
def emptyDB : DB :=
  { files := [], documents := [], document_tags := [], ai_generation_logs := [] }

/-- The `WHERE d.id = ? AND d.user_id = ?` condition used by every
owner-scoped query. -/
def ownerMatch (documentId userId : String) (d : DocRow) : Bool :=
  d.id == documentId && d.user_id == userId

/-- The `document_tags` rows of one document. -/
def tagRowsOf (db : DB) (documentId : String) : List TagRow :=
  db.document_tags.filter (fun t => t.document_id == documentId)

/-- The stored tag names of one document, in row order. -/
def tagNamesOf (db : DB) (documentId : String) : List String :=
  (tagRowsOf db documentId).map TagRow.tag_name

/-- `GROUP_CONCAT` joins the grouped values with a comma. -/
def joinComma : List String → String
  | [] => ""
  | [x] => x
  | x :: xs => x ++ "," ++ joinComma xs

/-- `GROUP_CONCAT(dt.tag_name)` for one document. -/
def groupConcatTags (db : DB) (documentId : String) : String :=
  joinComma (tagNamesOf db documentId)

/-- `doc.tags ? doc.tags.split(',') : []` — both SQL `NULL` (no tag rows)
and the empty concatenation are falsy in JS, so both yield `[]`. -/
def readTags (db : DB) (documentId : String) : List String :=
  let j := groupConcatTags db documentId
  if j = "" then [] else jsSplit "," j

/-- What `getDocument` returns: the document row together with its decoded
tags. -/
structure DocView where
  row : DocRow
  tags : List String
deriving Repr, DecidableEq

/-- `getDocument(documentId, userId)`: owner-scoped lookup joined with the
comma-concatenated tags; throws `'Document not found'` on a miss. -/
def getDocument (db : DB) (documentId userId : String) : Except String DocView :=
  match db.documents.find? (ownerMatch documentId userId) with
  | none => Except.error "Document not found"
  | some d => Except.ok { row := d, tags := readTags db documentId }

/-! ## saveDocument -/

/-- The caller-supplied `documentData` fields that `saveDocument` reads. -/
structure DocumentData where
  userId : String
  title : String
  template : String
  contentPreview : String
  format : Option String
deriving Repr, DecidableEq

/-- The observable side effects of one `saveDocument` call, in program
order. -/
inductive SaveEvent where
  | fileWrite
  | metadataInsert
  | logAppend
deriving Repr, DecidableEq

/-- The value `saveDocument` resolves with. -/
structure SaveResult where
  id : String
  filePath : String
  fileSize : Nat
deriving Repr, DecidableEq

/-- `saveDocument(userEmail, documentData, fileBuffer)`. Injected
nondeterminism: `documentId` models `crypto.randomUUID()`, `logId` the log
row's UUID, `year`/`month`/`timestamp`/`now` the wall clock, and `writeOk`
the outcome of `fs.writeFile` (on failure the error propagates out of the
`try` before the metadata `INSERT` is reached). The returned event list
records the side effects in the order the code performs them. -/
def saveDocument (db : DB) (baseStoragePath userEmail : String) (dat : DocumentData)
    (fileBufferSize : Nat) (documentId logId : String) (year month : String)
    (timestamp now : Nat) (writeOk : Bool) :
    DB × List SaveEvent × Except String SaveResult :=
  let filePath := generateDocumentPath baseStoragePath userEmail dat.template dat.title
      (dat.format.getD "docx") year month timestamp
  if writeOk then
    let fileSize := fileBufferSize
    let db1 := { db with files := db.files ++ [(filePath, fileSize)] }
    let row : DocRow :=
      { id := documentId
        user_id := dat.userId
        title := dat.title
        template_type := dat.template
        file_path := filePath
        content_preview := dat.contentPreview
        file_size := fileSize
        file_format := dat.format.getD "docx"
        is_favorite := false
        is_archived := false
        created_at := now
        updated_at := now }
    let db2 := { db1 with documents := db1.documents ++ [row] }
    let logRow : LogRow :=
      { id := logId
        user_id := dat.userId
        document_id := some documentId
        template_type := dat.template
        success := true }
    let db3 := { db2 with ai_generation_logs := db2.ai_generation_logs ++ [logRow] }
    (db3, [SaveEvent.fileWrite, SaveEvent.metadataInsert, SaveEvent.logAppend],
      Except.ok { id := documentId, filePath := filePath, fileSize := fileSize })
  else
    (db, [SaveEvent.fileWrite], Except.error "Failed to save document: write failed")

/-! ## updateDocument -/

/-- A JS value appearing in an `updates` object. Only strings and booleans
reach the allow-listed columns in this service. -/
inductive JsValue where
  | str (s : String)
  | bool (b : Bool)
deriving Repr, DecidableEq

/-- `const allowedUpdates = ['title', 'is_favorite', 'is_archived']`. -/
def allowedUpdates : List String :=
  ["title", "is_favorite", "is_archived"]

/-- Effect of one `SET key = ?` assignment on a row. Keys have already been
filtered to the allow-list; an assignment whose value type does not match
the column (never produced by the routes) is modelled as a no-op. -/
def applySet (d : DocRow) (kv : String × JsValue) : DocRow :=
  match kv with
  | ("title", JsValue.str v) => { d with title := v }
  | ("is_favorite", JsValue.bool v) => { d with is_favorite := v }
  | ("is_archived", JsValue.bool v) => { d with is_archived := v }
  | _ => d

/-- `updateDocument(documentId, userId, updates)`: filter the update object
to the allow-list, throw `'No valid updates provided'` if nothing is left,
otherwise run the owner-scoped `UPDATE` (which also sets
`updated_at = NOW()`) and return `getDocument`'s result. -/
def updateDocument (db : DB) (documentId userId : String)
    (updates : List (String × JsValue)) (now : Nat) : DB × Except String DocView :=
  let updateFields := updates.filter (fun kv => allowedUpdates.contains kv.1)
  if updateFields.length = 0 then
    (db, Except.error "No valid updates provided")
  else
    let db' := { db with documents := db.documents.map (fun d =>
        if ownerMatch documentId userId d then
          { updateFields.foldl applySet d with updated_at := now }
        else d) }
    (db', getDocument db' documentId userId)

/-! ## addDocumentTags, deleteDocument -/

/-- `addDocumentTags(documentId, userId, tags)`: verify ownership via
`getDocument`, delete all of the document's tag rows, then insert one row
per tag with the tag trimmed. `idGen` models the per-row
`crypto.randomUUID()` calls. -/
def addDocumentTags (db : DB) (documentId userId : String) (tags : List String)
    (idGen : Nat → String) : DB × Except String (List String) :=
  match getDocument db documentId userId with
  | Except.error e => (db, Except.error e)
  | Except.ok _ =>
    let db1 := { db with document_tags :=
        db.document_tags.filter (fun t => !(t.document_id == documentId)) }
    if 0 < tags.length then
      let newRows := tags.enum.map (fun p =>
        ({ id := idGen p.1, document_id := documentId, tag_name := jsTrim p.2 } : TagRow))
      ({ db1 with document_tags := db1.document_tags ++ newRows }, Except.ok tags)
    else
      (db1, Except.ok tags)

/-- Modelled from the spec: the relational schema (the `CREATE TABLE`
statements) is not part of the repository; per the spec, "Tag rows are
removed by referential cascade or explicit cleanup", so removing a
document's row from `documents` also removes its rows from
`document_tags`. -/
def sqlDeleteDocumentCascade (db : DB) (documentId userId : String) : DB :=
  { db with
    documents := db.documents.filter (fun d => !(ownerMatch documentId userId d))
    document_tags := db.document_tags.filter (fun t => !(t.document_id == documentId)) }

/-- `deleteDocument(documentId, userId)`: owner-scoped lookup, tolerated
file removal (`fs.unlink` failure is only warned about), then the
`DELETE FROM documents` row removal. -/
def deleteDocument (db : DB) (documentId userId : String) : DB × Except String Unit :=
  match getDocument db documentId userId with
  | Except.error e => (db, Except.error e)
  | Except.ok v =>
    let db1 := { db with files := db.files.filter (fun f => !(f.1 == v.row.file_path)) }
    (sqlDeleteDocumentCascade db1 documentId userId, Except.ok ())

/-! ## Batch route (`backend/routes/userRoutes.js`) -/

/-- One iteration of the batch loop: dispatch on the action string; the
per-item `try/catch` turns a thrown error into a failed item result.
`dataFavorite` and `dataArchived` model `data.favorite` and
`data.archived`. -/
def batchItem (db : DB) (userId action documentId : String)
    (dataFavorite dataArchived : JsValue) (now : Nat) : DB × Bool :=
  if action = "delete" then
    let r := deleteDocument db documentId userId
    (r.1, r.2.isOk)
  else if action = "favorite" then
    let r := updateDocument db documentId userId [("is_favorite", dataFavorite)] now
    (r.1, r.2.isOk)
  else if action = "archive" then
    let r := updateDocument db documentId userId [("is_archived", dataArchived)] now
    (r.1, r.2.isOk)
  else
    (db, false)

/-- One element of the batch route's `results` array. -/
structure BatchItemResult where
  documentId : String
  success : Bool
deriving Repr, DecidableEq

/-- One pass of the batch loop body: run the item against the accumulated
state and push its inline result. -/
def batchStep (userId action : String) (dataFavorite dataArchived : JsValue) (now : Nat)
    (acc : DB × List BatchItemResult) (documentId : String) : DB × List BatchItemResult :=
  let r := batchItem acc.1 userId action documentId dataFavorite dataArchived now
  (r.1, acc.2 ++ [{ documentId := documentId, success := r.2 }])

/-- The `POST /user/documents/batch` loop over `documentIds`. -/
def batchOperation (db : DB) (userId action : String) (documentIds : List String)
    (dataFavorite dataArchived : JsValue) (now : Nat) : DB × List BatchItemResult :=
  documentIds.foldl (batchStep userId action dataFavorite dataArchived now) (db, [])

/-! ## Reachable store states -/

/-- One mutating call into the document store, with all nondeterministic
inputs (UUIDs, wall clock, filesystem outcome) carried as data. -/
inductive StoreOp where
  | save (baseStoragePath userEmail : String) (dat : DocumentData) (fileBufferSize : Nat)
      (documentId logId year month : String) (timestamp now : Nat) (writeOk : Bool)
  | update (documentId userId : String) (updates : List (String × JsValue)) (now : Nat)
  | addTags (documentId userId : String) (tags : List String) (idGen : Nat → String)
  | remove (documentId userId : String)

/-- The state transition of one store call (errors leave the returned state
as the call left it). -/
def applyStoreOp (db : DB) : StoreOp → DB
  | StoreOp.save base email dat buf docId logId y m ts now w =>
    (saveDocument db base email dat buf docId logId y m ts now w).1
  | StoreOp.update docId uid ups now => (updateDocument db docId uid ups now).1
  | StoreOp.addTags docId uid tags g => (addDocumentTags db docId uid tags g).1
  | StoreOp.remove docId uid => (deleteDocument db docId uid).1

/-- The store state after a sequence of calls starting from the empty
store. -/
def runOps (ops : List StoreOp) : DB :=
  ops.foldl applyStoreOp emptyDB

/-- No orphan tag rows: every `document_tags` row references a document that
has a metadata row. -/
def noOrphanTags (db : DB) : Prop :=
  ∀ t ∈ db.document_tags, ∃ d ∈ db.documents, d.id = t.document_id

/-! ## Theorems: section parser -/

theorem trimOrEmpty_eq_jsTrim (s : String) : trimOrEmpty s = jsTrim s := by
  unfold trimOrEmpty
  split
  · rename_i h
    rw [h]
    decide
  · rfl

/-- C1 (amended): for both template kinds, the tier-1 strict split is used
exactly when splitting on `"---"` yields AT LEAST the required section
count (the code tests `parts.length >= N`, not `=== N`); in that case the
i-th section key receives the i-th part trimmed, and with fewer parts the
parser falls through to the fallback ladder. In particular, for input with
exactly `N-1` delimiters the part count is `N` and each section equals its
trimmed segment. -/
theorem parse_strict_split_threshold (content : String) :
    (6 ≤ (jsSplit "---" content).length →
      ∀ i < 6, (parseAIResponse content).sectionList.getD i ""
        = jsTrim ((jsSplit "---" content).getD i ""))
  ∧ ((jsSplit "---" content).length < 6 → parseAIResponse content = rcaFallback content)
  ∧ (5 ≤ (jsSplit "---" content).length →
      ∀ i < 5, (parseStepByStepResponse content).sectionList.getD i ""
        = jsTrim ((jsSplit "---" content).getD i ""))
  ∧ ((jsSplit "---" content).length < 5 →
      parseStepByStepResponse content = guideFallback content) := by
  refine ⟨?_, ?_, ?_, ?_⟩
  · intro h i hi
    simp only [parseAIResponse]
    rw [if_pos h]
    simp only [RcaSections.sectionList]
    interval_cases i <;> simp [List.getD, trimOrEmpty_eq_jsTrim]
  · intro h
    simp only [parseAIResponse]
    rw [if_neg (not_le.mpr h)]
  · intro h i hi
    simp only [parseStepByStepResponse]
    rw [if_pos h]
    simp only [GuideSections.sectionList]
    interval_cases i <;> simp [List.getD, trimOrEmpty_eq_jsTrim]
  · intro h
    simp only [parseStepByStepResponse]
    rw [if_neg (not_le.mpr h)]

/-- C1 witness: a concrete six-part input takes the strict split and the
second section is the trimmed second segment. -/
theorem parse_strict_split_threshold_instance :
    6 ≤ (jsSplit "---" "a--- b ---c---d---e---f").length
  ∧ (parseAIResponse "a--- b ---c---d---e---f").sectionList.getD 1 ""
      = jsTrim ((jsSplit "---" "a--- b ---c---d---e---f").getD 1 "") :=
  ⟨by decide,
    (parse_strict_split_threshold "a--- b ---c---d---e---f").1 (by decide) 1 (by decide)⟩

/-- C1 counterexample: on a seven-part input the part count is not 6, yet
`parseAIResponse` still takes the strict split, diverging from the ladder
as C1 states it (`parseAIResponseClaimed`, strict split iff the count
equals 6). -/
theorem parse_strict_split_exact_count_false :
    (jsSplit "---" "a---b---c---d---e---f---g").length ≠ 6
  ∧ parseAIResponse "a---b---c---d---e---f---g"
      ≠ parseAIResponseClaimed "a---b---c---d---e---f---g"
  ∧ (parseAIResponse "a---b---c---d---e---f---g").executive_summary = "b"
  ∧ (parseAIResponseClaimed "a---b---c---d---e---f---g").executive_summary
      = "Executive summary not properly parsed" := by decide

/-- C2 (amended): when neither the strict-split condition nor the paragraph
condition holds, the whole raw text goes to the first section key; for the
6-section shape every remaining key receives `"<Section name> not properly
parsed"`, but for the 5-section shape (whose only other tier is the strict
split) the remaining keys receive the fixed strings `"General users"`,
`"No specific prerequisites"`, `"Steps not properly parsed"` and
`"Conclusion not available"`, which do not all follow that placeholder
pattern. -/
theorem parse_total_fallback_shapes (content : String) :
    ((jsSplit "---" content).length < 6 → (paragraphSplit content).length < 6 →
      parseAIResponse content =
        { initial_findings := content
          executive_summary := "Executive summary not properly parsed"
          timeline_events := "Timeline not properly parsed"
          risk_impact := "Risk assessment not properly parsed"
          resolution_actions := "Resolution actions not properly parsed"
          lessons_learned := "Lessons learned not properly parsed" })
  ∧ ((jsSplit "---" content).length < 5 →
      parseStepByStepResponse content =
        { guide_overview := content
          target_audience := "General users"
          prerequisites := "No specific prerequisites"
          steps_content := "Steps not properly parsed"
          conclusion := "Conclusion not available" }) := by
  constructor
  · intro h hp
    simp only [parseAIResponse]
    rw [if_neg (not_le.mpr h)]
    simp only [rcaFallback]
    rw [if_neg (not_le.mpr hp)]
    rfl
  · intro h
    simp only [parseStepByStepResponse]
    rw [if_neg (not_le.mpr h)]
    rfl

/-- C2 witness: the empty input satisfies neither condition for the
6-section shape and every non-first key receives its placeholder. -/
theorem parse_total_fallback_shapes_instance :
    (jsSplit "---" "").length < 6 ∧ (paragraphSplit "").length < 6
  ∧ (parseAIResponse "").initial_findings = ""
  ∧ (parseAIResponse "").executive_summary = "Executive summary not properly parsed" :=
  ⟨by decide, by decide,
    by rw [(parse_total_fallback_shapes "").1 (by decide) (by decide)],
    by rw [(parse_total_fallback_shapes "").1 (by decide) (by decide)]⟩

/-- C2 counterexample: for the 5-section shape on empty input, the
remaining keys are not of the form `"<Section name> not properly parsed"`
(two of them do not even contain that phrase). -/
theorem guide_fallback_placeholder_shape_false :
    (jsSplit "---" "").length < 5
  ∧ (parseStepByStepResponse "").guide_overview = ""
  ∧ (parseStepByStepResponse "").target_audience = "General users"
  ∧ strContains "not properly parsed" "General users" = false
  ∧ (parseStepByStepResponse "").conclusion = "Conclusion not available"
  ∧ strContains "not properly parsed" "Conclusion not available" = false := by decide

/-- C3 (amended): only the 6-section analytical-report shape implements the
paragraph fallback: with a wrong delimiter count but at least six non-blank
blank-line-separated paragraphs, the first six paragraphs are assigned to
the six keys in order (surplus ignored, nothing raised). The 5-section
guide shape has no paragraph tier: with a wrong delimiter count it goes
directly to its total fallback. -/
theorem paragraph_fallback_rca_only (content : String) :
    ((jsSplit "---" content).length < 6 → 6 ≤ (paragraphSplit content).length →
      ∀ i < 6, (parseAIResponse content).sectionList.getD i ""
        = (paragraphSplit content).getD i "")
  ∧ ((jsSplit "---" content).length < 5 →
      parseStepByStepResponse content = guideFallback content) := by
  constructor
  · intro h hp i hi
    simp only [parseAIResponse]
    rw [if_neg (not_le.mpr h)]
    simp only [rcaFallback]
    rw [if_pos hp]
    simp only [RcaSections.sectionList]
    interval_cases i <;> simp [List.getD]
  · intro h
    simp only [parseStepByStepResponse]
    rw [if_neg (not_le.mpr h)]

/-- C3 witness: a delimiter-free input with seven paragraphs takes the
paragraph fallback for the 6-section shape; the third key receives the
third paragraph. -/
theorem paragraph_fallback_rca_only_instance :
    (jsSplit "---" "p1\n\np2\n\np3\n\np4\n\np5\n\np6\n\np7").length < 6
  ∧ 6 ≤ (paragraphSplit "p1\n\np2\n\np3\n\np4\n\np5\n\np6\n\np7").length
  ∧ (parseAIResponse "p1\n\np2\n\np3\n\np4\n\np5\n\np6\n\np7").sectionList.getD 2 ""
      = (paragraphSplit "p1\n\np2\n\np3\n\np4\n\np5\n\np6\n\np7").getD 2 "" :=
  ⟨by decide, by decide,
    (paragraph_fallback_rca_only "p1\n\np2\n\np3\n\np4\n\np5\n\np6\n\np7").1
      (by decide) (by decide) 2 (by decide)⟩

/-- C3 counterexample: an input with five blank-line-separated paragraphs
and a wrong delimiter count, for which the 5-section guide shape does NOT
fall back to paragraph assignment (the second key would be `"p2"`) but
yields its fixed fallback instead. -/
theorem guide_paragraph_fallback_false :
    (jsSplit "---" "p1\n\np2\n\np3\n\np4\n\np5").length < 5
  ∧ 5 ≤ (paragraphSplit "p1\n\np2\n\np3\n\np4\n\np5").length
  ∧ (parseStepByStepResponse "p1\n\np2\n\np3\n\np4\n\np5").target_audience = "General users"
  ∧ (parseStepByStepResponse "p1\n\np2\n\np3\n\np4\n\np5").target_audience ≠ "p2" := by
  decide

/-! ## Theorems: storage path -/

theorem data_mk (l : List Char) : (String.mk l).data = l := rfl

theorem mem_collapseWhitespaceAux {c : Char} :
    ∀ (b : Bool) (l : List Char), c ∈ collapseWhitespaceAux b l →
      c = '_' ∨ (c ∈ l ∧ c.isWhitespace = false) := by
  intro b l
  induction l generalizing b with
  | nil => intro h; simp [collapseWhitespaceAux] at h
  | cons a t ih =>
    intro h
    simp only [collapseWhitespaceAux] at h
    by_cases ha : a.isWhitespace
    · rw [if_pos ha] at h
      cases b with
      | true =>
        rw [if_pos rfl] at h
        rcases ih true h with h' | ⟨hm, hw⟩
        · exact Or.inl h'
        · exact Or.inr ⟨List.mem_cons_of_mem _ hm, hw⟩
      | false =>
        rw [if_neg (by decide : ¬false = true)] at h
        rcases List.mem_cons.mp h with h' | h'
        · exact Or.inl h'
        · rcases ih true h' with h'' | ⟨hm, hw⟩
          · exact Or.inl h''
          · exact Or.inr ⟨List.mem_cons_of_mem _ hm, hw⟩
    · rw [if_neg ha] at h
      rcases List.mem_cons.mp h with h' | h'
      · subst h'
        exact Or.inr ⟨List.mem_cons_self _ _, by simpa using ha⟩
      · rcases ih false h' with h'' | ⟨hm, hw⟩
        · exact Or.inl h''
        · exact Or.inr ⟨List.mem_cons_of_mem _ hm, hw⟩

/-- C4 (amended): the storage path has the scheme
`{storageRoot}/{sanitizedOwnerKey}/documents/{year}/{month}/{timestamp}_{templateKind}_{sanitizedTitle}.{format}`,
but sanitization REPLACES each owner-key character outside `[A-Za-z0-9@.-]`
with an underscore (preserving length; `@` and `.` are kept, spaces become
underscores — characters are not stripped), and strips title characters
outside `[A-Za-z0-9 \t\r\n-]` before collapsing whitespace runs to single
underscores. Consequently owner `"alice@example.com"` with title
`"Q1 Outage"` and template `"rca"` yields
`.../alice@example.com/documents/{YYYY}/{MM}/{ts}_rca_Q1_Outage.docx`
(not `.../alice_example.com/...`). -/
theorem document_path_scheme (baseStoragePath userEmail templateType title format year month : String)
    (timestamp : Nat) :
    (∀ c ∈ (sanitizeEmail userEmail).data, emailAllowedChar c = true ∨ c = '_')
  ∧ (sanitizeEmail userEmail).data.length = userEmail.data.length
  ∧ (∀ c ∈ (safeTitle title).data,
      (titleAllowedChar c = true ∧ c.isWhitespace = false) ∨ c = '_')
  ∧ generateDocumentPath baseStoragePath userEmail templateType title format year month timestamp
      = baseStoragePath ++ "/" ++ sanitizeEmail userEmail ++ "/documents/" ++ year ++ "/"
        ++ month ++ "/" ++ toString timestamp ++ "_" ++ templateType ++ "_"
        ++ safeTitle title ++ "." ++ format
  ∧ jsSplit "/" (generateDocumentPath "stored" "alice@example.com" "rca" "Q1 Outage"
        "docx" "2026" "10" 1760000000000)
      = ["stored", "alice@example.com", "documents", "2026", "10",
         "1760000000000_rca_Q1_Outage.docx"] := by
  refine ⟨?_, ?_, ?_, ?_, by decide⟩
  · intro c hc
    rw [sanitizeEmail, data_mk] at hc
    rcases List.mem_map.mp hc with ⟨a, _, ha⟩
    by_cases h : emailAllowedChar a
    · rw [if_pos h] at ha
      exact Or.inl (ha ▸ h)
    · rw [if_neg h] at ha
      exact Or.inr ha.symm
  · rw [sanitizeEmail, data_mk, List.length_map]
  · intro c hc
    rw [safeTitle, data_mk] at hc
    rcases mem_collapseWhitespaceAux false _ hc with h | ⟨hm, hw⟩
    · exact Or.inr h
    · exact Or.inl ⟨(List.mem_filter.mp hm).2, hw⟩
  · simp [generateDocumentPath, getUserStoragePath, String.append_assoc]

/-- C4 witness: a concrete character of a concrete sanitized owner key. -/
theorem document_path_scheme_instance :
    '.' ∈ (sanitizeEmail "a b.c").data ∧ (emailAllowedChar '.' = true ∨ '.' = '_') :=
  ⟨by decide,
    (document_path_scheme "stored" "a b.c" "rca" "t" "docx" "2026" "10" 0).1 '.' (by decide)⟩

/-- C4 counterexample: the owner key `"alice@example.com"` contains only
characters of the kept class, so the owner directory is
`"alice@example.com"`; the path claimed by C4
(`.../alice_example.com/...`) does not occur. -/
theorem owner_key_sanitization_false :
    sanitizeEmail "alice@example.com" = "alice@example.com"
  ∧ (jsSplit "/" (generateDocumentPath "stored" "alice@example.com" "rca" "Q1 Outage"
        "docx" "2026" "10" 1760000000000)).getD 1 "" = "alice@example.com"
  ∧ "alice@example.com" ≠ "alice_example.com"
  ∧ strContains "alice_example.com"
      (generateDocumentPath "stored" "alice@example.com" "rca" "Q1 Outage"
        "docx" "2026" "10" 1760000000000) = false := by
  decide

/-! ## Demo fixtures used by concrete instances -/

/-- A deterministic stand-in for the per-row `crypto.randomUUID()` calls. -/
def demoIdGen : Nat → String := fun n => "tag-" ++ toString n

/-- A stored document owned by user `u1`. -/
def demoDoc : DocRow :=
  { id := "y"
    user_id := "u1"
    title := "T"
    template_type := "rca"
    file_path := "stored/u1/documents/2026/10/1_rca_T.docx"
    content_preview := ""
    file_size := 1
    file_format := "docx"
    is_favorite := false
    is_archived := false
    created_at := 0
    updated_at := 0 }

/-- A stored document owned by a different user `u2`. -/
def demoDocOther : DocRow :=
  { demoDoc with id := "x", user_id := "u2" }

/-- A store with one document of `u2` and one of `u1`, no tags. -/
def demoDb : DB :=
  { files := []
    documents := [demoDocOther, demoDoc]
    document_tags := []
    ai_generation_logs := [] }

/-! ## Theorems: saveDocument ordering and failure -/

/-- C5 (confirmed): within one `saveDocument` call the file write strictly
precedes the metadata-row insert, which strictly precedes the
generation-log append; and if the file write fails, the call rejects
without inserting a metadata row or a log entry. -/
theorem saveDocument_write_insert_log_order (db : DB)
    (baseStoragePath userEmail : String) (dat : DocumentData) (fileBufferSize : Nat)
    (documentId logId year month : String) (timestamp now : Nat) (writeOk : Bool) :
    (writeOk = true →
      ((saveDocument db baseStoragePath userEmail dat fileBufferSize documentId logId
          year month timestamp now writeOk).2.1.indexOf SaveEvent.fileWrite
        < (saveDocument db baseStoragePath userEmail dat fileBufferSize documentId logId
          year month timestamp now writeOk).2.1.indexOf SaveEvent.metadataInsert)
      ∧ ((saveDocument db baseStoragePath userEmail dat fileBufferSize documentId logId
          year month timestamp now writeOk).2.1.indexOf SaveEvent.metadataInsert
        < (saveDocument db baseStoragePath userEmail dat fileBufferSize documentId logId
          year month timestamp now writeOk).2.1.indexOf SaveEvent.logAppend)
      ∧ (saveDocument db baseStoragePath userEmail dat fileBufferSize documentId logId
          year month timestamp now writeOk).2.2.isOk = true)
  ∧ (writeOk = false →
      (saveDocument db baseStoragePath userEmail dat fileBufferSize documentId logId
          year month timestamp now writeOk).2.2.isOk = false
      ∧ (saveDocument db baseStoragePath userEmail dat fileBufferSize documentId logId
          year month timestamp now writeOk).1.documents = db.documents
      ∧ (saveDocument db baseStoragePath userEmail dat fileBufferSize documentId logId
          year month timestamp now writeOk).1.ai_generation_logs = db.ai_generation_logs
      ∧ SaveEvent.metadataInsert ∉ (saveDocument db baseStoragePath userEmail dat
          fileBufferSize documentId logId year month timestamp now writeOk).2.1
      ∧ SaveEvent.logAppend ∉ (saveDocument db baseStoragePath userEmail dat
          fileBufferSize documentId logId year month timestamp now writeOk).2.1) := by
  constructor
  · intro h
    subst h
    have htr : (saveDocument db baseStoragePath userEmail dat fileBufferSize documentId
        logId year month timestamp now true).2.1
        = [SaveEvent.fileWrite, SaveEvent.metadataInsert, SaveEvent.logAppend] := rfl
    refine ⟨?_, ?_, rfl⟩ <;> rw [htr] <;> decide
  · intro h
    subst h
    have htr : (saveDocument db baseStoragePath userEmail dat fileBufferSize documentId
        logId year month timestamp now false).2.1 = [SaveEvent.fileWrite] := rfl
    refine ⟨rfl, rfl, rfl, ?_, ?_⟩ <;> rw [htr] <;> decide

/-- C5 witness: a concrete successful save and a concrete failed write. -/
theorem saveDocument_write_insert_log_order_instance :
    ((saveDocument emptyDB "stored" "alice@example.com"
        { userId := "u1", title := "Q1 Outage", template := "rca",
          contentPreview := "", format := some "docx" }
        5 "d1" "l1" "2026" "10" 1760000000000 100 true).2.1.indexOf SaveEvent.fileWrite
      < (saveDocument emptyDB "stored" "alice@example.com"
        { userId := "u1", title := "Q1 Outage", template := "rca",
          contentPreview := "", format := some "docx" }
        5 "d1" "l1" "2026" "10" 1760000000000 100 true).2.1.indexOf SaveEvent.metadataInsert)
  ∧ (saveDocument emptyDB "stored" "alice@example.com"
        { userId := "u1", title := "Q1 Outage", template := "rca",
          contentPreview := "", format := some "docx" }
        5 "d1" "l1" "2026" "10" 1760000000000 100 false).1.documents = emptyDB.documents :=
  ⟨((saveDocument_write_insert_log_order emptyDB "stored" "alice@example.com"
      { userId := "u1", title := "Q1 Outage", template := "rca",
        contentPreview := "", format := some "docx" }
      5 "d1" "l1" "2026" "10" 1760000000000 100 true).1 rfl).1,
    ((saveDocument_write_insert_log_order emptyDB "stored" "alice@example.com"
      { userId := "u1", title := "Q1 Outage", template := "rca",
        contentPreview := "", format := some "docx" }
      5 "d1" "l1" "2026" "10" 1760000000000 100 false).2 rfl).2.1⟩

/-! ## Theorems: updateDocument -/

theorem applySet_id (d : DocRow) (kv : String × JsValue) : (applySet d kv).id = d.id := by
  unfold applySet
  split <;> rfl

theorem applySet_user_id (d : DocRow) (kv : String × JsValue) :
    (applySet d kv).user_id = d.user_id := by
  unfold applySet
  split <;> rfl

theorem foldl_applySet_id (l : List (String × JsValue)) (d : DocRow) :
    (l.foldl applySet d).id = d.id := by
  induction l generalizing d with
  | nil => rfl
  | cons kv t ih => rw [List.foldl_cons, ih, applySet_id]

theorem foldl_applySet_user_id (l : List (String × JsValue)) (d : DocRow) :
    (l.foldl applySet d).user_id = d.user_id := by
  induction l generalizing d with
  | nil => rfl
  | cons kv t ih => rw [List.foldl_cons, ih, applySet_user_id]

/-- C6 (confirmed): `updateDocument` persists only fields of the allow-list
`{title, is_favorite, is_archived}` — the call behaves identically on the
updates object filtered to the allow-list, so every other key is silently
dropped — it fails with `'No valid updates provided'` exactly when the
filtered update set is empty, and on success the returned row's
`updated_at` is refreshed to the call's `NOW()`. -/
theorem updateDocument_allowlist_spec (db : DB) (documentId userId : String)
    (updates : List (String × JsValue)) (now : Nat) :
    ((updateDocument db documentId userId updates now).2
        = Except.error "No valid updates provided"
      ↔ updates.filter (fun kv => allowedUpdates.contains kv.1) = [])
  ∧ updateDocument db documentId userId updates now
      = updateDocument db documentId userId
          (updates.filter (fun kv => allowedUpdates.contains kv.1)) now
  ∧ (∀ v : DocView, (updateDocument db documentId userId updates now).2 = Except.ok v →
      v.row.updated_at = now) := by
  have hff : (updates.filter (fun kv => allowedUpdates.contains kv.1)).filter
      (fun kv => allowedUpdates.contains kv.1)
      = updates.filter (fun kv => allowedUpdates.contains kv.1) := by
    simp [List.filter_filter]
  refine ⟨?_, ?_, ?_⟩
  · by_cases hl : (updates.filter (fun kv => allowedUpdates.contains kv.1)).length = 0
    · simp only [updateDocument, if_pos hl]
      simpa using List.length_eq_zero.mp hl
    · simp only [updateDocument, if_neg hl]
      constructor
      · intro h
        exfalso
        unfold getDocument at h
        cases hf : List.find? (ownerMatch documentId userId) _ <;> rw [hf] at h <;>
          simp at h
      · intro h
        exact absurd (by rw [h]; rfl) hl
  · simp only [updateDocument, hff]
  · intro v hv
    by_cases hl : (updates.filter (fun kv => allowedUpdates.contains kv.1)).length = 0
    · simp only [updateDocument, if_pos hl] at hv
      simp at hv
    · simp only [updateDocument] at hv
      rw [if_neg hl] at hv
      unfold getDocument at hv
      cases hf : List.find? (ownerMatch documentId userId)
          (List.map (fun d =>
            if ownerMatch documentId userId d then
              { (updates.filter (fun kv => allowedUpdates.contains kv.1)).foldl applySet d with
                updated_at := now }
            else d) db.documents) <;> rw [hf] at hv
      · simp at hv
      · rename_i d
        simp only [Except.ok.injEq] at hv
        subst hv
        have hd := List.find?_some hf
        rcases List.mem_map.mp (List.mem_of_find?_eq_some hf) with ⟨d₀, _, hfd⟩
        by_cases hc : ownerMatch documentId userId d₀
        · rw [if_pos hc] at hfd
          rw [← hfd]
        · rw [if_neg hc] at hfd
          subst hfd
          exact absurd hd hc

/-- C6 witness: `{is_favorite: true, not_allowed: 'x'}` persists only
`is_favorite` and refreshes `updated_at`. -/
theorem updateDocument_allowlist_spec_instance :
    (updateDocument demoDb "y" "u1"
        [("is_favorite", JsValue.bool true), ("not_allowed", JsValue.str "x")] 7).2
      = Except.ok { row := { demoDoc with is_favorite := true, updated_at := 7 }, tags := [] }
  ∧ ({ demoDoc with is_favorite := true, updated_at := 7 } : DocRow).updated_at = 7 :=
  ⟨rfl,
    (updateDocument_allowlist_spec demoDb "y" "u1"
        [("is_favorite", JsValue.bool true), ("not_allowed", JsValue.str "x")] 7).2.2
      { row := { demoDoc with is_favorite := true, updated_at := 7 }, tags := [] }
      rfl⟩

/-! ## Theorems: addDocumentTags -/

theorem find_of_getDocument_ok {db : DB} {i u : String} {v : DocView}
    (h : getDocument db i u = Except.ok v) :
    db.documents.find? (ownerMatch i u) = some v.row := by
  unfold getDocument at h
  cases hf : db.documents.find? (ownerMatch i u) <;> rw [hf] at h
  · simp at h
  · simp only [Except.ok.injEq] at h
    rw [← h]

theorem enumTagRows_names (documentId : String) (g : Nat → String) (tags : List String) :
    (tags.enum.map (fun p =>
        ({ id := g p.1, document_id := documentId, tag_name := jsTrim p.2 } : TagRow))).map
      TagRow.tag_name = tags.map jsTrim := by
  rw [List.map_map]
  have h1 : (TagRow.tag_name ∘ fun p : Nat × String =>
      ({ id := g p.1, document_id := documentId, tag_name := jsTrim p.2 } : TagRow))
      = fun p : Nat × String => jsTrim p.2 := rfl
  rw [h1]
  have h2 : (fun p : Nat × String => jsTrim p.2) = jsTrim ∘ Prod.snd := rfl
  rw [h2, ← List.map_map, List.enum_map_snd]

/-- The state left by a successful `addDocumentTags` call: documents and
files untouched, the document's tag rows replaced by the trimmed input
tags, other documents' tag rows untouched. -/
theorem addDocumentTags_state (db : DB) (documentId userId : String) (tags : List String)
    (g : Nat → String) (v : DocView) (hok : getDocument db documentId userId = Except.ok v) :
    (addDocumentTags db documentId userId tags g).1.documents = db.documents
  ∧ (addDocumentTags db documentId userId tags g).1.files = db.files
  ∧ tagNamesOf (addDocumentTags db documentId userId tags g).1 documentId = tags.map jsTrim
  ∧ (∀ other, other ≠ documentId →
      tagRowsOf (addDocumentTags db documentId userId tags g).1 other = tagRowsOf db other)
  ∧ (addDocumentTags db documentId userId tags g).2 = Except.ok tags := by
  by_cases hpos : 0 < tags.length
  · have hdb : addDocumentTags db documentId userId tags g
        = ({ db with document_tags :=
              db.document_tags.filter (fun t => !(t.document_id == documentId))
                ++ tags.enum.map (fun p =>
                  ({ id := g p.1, document_id := documentId,
                     tag_name := jsTrim p.2 } : TagRow)) },
            Except.ok tags) := by
      simp only [addDocumentTags, hok]
      rw [if_pos hpos]
    rw [hdb]
    refine ⟨rfl, rfl, ?_, ?_, rfl⟩
    · unfold tagNamesOf tagRowsOf
      rw [List.filter_append]
      have h1 : (db.document_tags.filter
            (fun t => !(t.document_id == documentId))).filter
            (fun t => t.document_id == documentId) = [] := by
        rw [List.filter_filter]
        apply List.filter_eq_nil_iff.mpr
        intro t _
        cases h : t.document_id == documentId <;> simp [h]
      have h2 : (tags.enum.map (fun p =>
            ({ id := g p.1, document_id := documentId,
               tag_name := jsTrim p.2 } : TagRow))).filter
            (fun t => t.document_id == documentId)
          = tags.enum.map (fun p =>
            ({ id := g p.1, document_id := documentId,
               tag_name := jsTrim p.2 } : TagRow)) := by
        apply List.filter_eq_self.mpr
        intro t ht
        rcases List.mem_map.mp ht with ⟨p, _, rfl⟩
        exact beq_self_eq_true documentId
      rw [h1, h2, List.nil_append, enumTagRows_names]
    · intro other hother
      unfold tagRowsOf
      rw [List.filter_append]
      have h2 : (tags.enum.map (fun p =>
            ({ id := g p.1, document_id := documentId,
               tag_name := jsTrim p.2 } : TagRow))).filter
            (fun t => t.document_id == other) = [] := by
        apply List.filter_eq_nil_iff.mpr
        intro t ht
        rcases List.mem_map.mp ht with ⟨p, _, rfl⟩
        simp only [beq_iff_eq]
        exact fun e => hother e.symm
      rw [h2, List.append_nil, List.filter_filter]
      apply List.filter_congr
      intro t _
      cases h : t.document_id == other
      · simp
      · have he : t.document_id = other := by
          have := h
          exact eq_of_beq this
        have hne : (t.document_id == documentId) = false := by
          simp only [beq_eq_false_iff_ne, ne_eq]
          rw [he]
          exact fun e => hother e
        simp [hne]
  · have htags : tags = [] := by
      cases tags with
      | nil => rfl
      | cons a t => simp at hpos
    subst htags
    have hdb : addDocumentTags db documentId userId [] g
        = ({ db with document_tags :=
              db.document_tags.filter (fun t => !(t.document_id == documentId)) },
            Except.ok []) := by
      simp only [addDocumentTags, hok]
      rfl
    rw [hdb]
    refine ⟨rfl, rfl, ?_, ?_, rfl⟩
    · unfold tagNamesOf tagRowsOf
      rw [List.filter_filter]
      have h1 : (db.document_tags.filter
          (fun t => (t.document_id == documentId) && !(t.document_id == documentId))) = [] := by
        apply List.filter_eq_nil_iff.mpr
        intro t _
        cases h : t.document_id == documentId <;> simp [h]
      rw [h1]
      rfl
    · intro other hother
      unfold tagRowsOf
      rw [List.filter_filter]
      apply List.filter_congr
      intro t _
      cases h : t.document_id == other
      · simp
      · have he : t.document_id = other := eq_of_beq h
        have hne : (t.document_id == documentId) = false := by
          simp only [beq_eq_false_iff_ne, ne_eq]
          rw [he]
          exact fun e => hother e
        simp [hne]

/-- C7 (confirmed): `addDocumentTags` first verifies ownership (an
unowned id propagates the lookup error and leaves the store untouched),
then replaces the document's entire tag set with the given list instead of
merging; a second call therefore leaves exactly the second list's (trimmed)
tags. -/
theorem addDocumentTags_replaces_tag_set (db : DB) (documentId userId : String)
    (tags₁ tags₂ : List String) (g₁ g₂ : Nat → String) :
    (∀ e, getDocument db documentId userId = Except.error e →
      addDocumentTags db documentId userId tags₁ g₁ = (db, Except.error e))
  ∧ (∀ v, getDocument db documentId userId = Except.ok v →
      tagNamesOf (addDocumentTags db documentId userId tags₁ g₁).1 documentId
        = tags₁.map jsTrim
      ∧ (∀ other, other ≠ documentId →
          tagRowsOf (addDocumentTags db documentId userId tags₁ g₁).1 other
            = tagRowsOf db other))
  ∧ (∀ v, getDocument db documentId userId = Except.ok v →
      tagNamesOf (addDocumentTags (addDocumentTags db documentId userId tags₁ g₁).1
          documentId userId tags₂ g₂).1 documentId = tags₂.map jsTrim) := by
  refine ⟨?_, ?_, ?_⟩
  · intro e he
    simp only [addDocumentTags, he]
  · intro v hok
    exact ⟨(addDocumentTags_state db documentId userId tags₁ g₁ v hok).2.2.1,
           (addDocumentTags_state db documentId userId tags₁ g₁ v hok).2.2.2.1⟩
  · intro v hok
    have hdocs := (addDocumentTags_state db documentId userId tags₁ g₁ v hok).1
    have hfind := find_of_getDocument_ok hok
    have hok2 : getDocument (addDocumentTags db documentId userId tags₁ g₁).1
        documentId userId
        = Except.ok
            ⟨v.row, readTags (addDocumentTags db documentId userId tags₁ g₁).1 documentId⟩ := by
      unfold getDocument
      rw [hdocs, hfind]
    exact (addDocumentTags_state _ documentId userId tags₂ g₂ _ hok2).2.2.1

/-- C7 witness: `['a','b']` then `['c']` leaves exactly `{'c'}`. -/
theorem addDocumentTags_replaces_tag_set_instance :
    tagNamesOf (addDocumentTags (addDocumentTags demoDb "y" "u1" ["a", "b"] demoIdGen).1
        "y" "u1" ["c"] demoIdGen).1 "y" = ["c"] := by
  have h := (addDocumentTags_replaces_tag_set demoDb "y" "u1" ["a", "b"] ["c"]
      demoIdGen demoIdGen).2.2 { row := demoDoc, tags := [] } rfl
  exact h.trans (by decide)

/-! ## Theorems: no orphan tag rows -/

theorem noOrphan_save (db : DB) (base email : String) (dat : DocumentData) (buf : Nat)
    (docId logId y m : String) (ts now : Nat) (w : Bool) (h : noOrphanTags db) :
    noOrphanTags (saveDocument db base email dat buf docId logId y m ts now w).1 := by
  cases w
  · exact h
  · intro t ht
    have htags : (saveDocument db base email dat buf docId logId y m ts now true).1.document_tags
        = db.document_tags := rfl
    rw [htags] at ht
    rcases h t ht with ⟨d, hd, hid⟩
    obtain ⟨r, hdocs⟩ : ∃ r, (saveDocument db base email dat buf docId logId y m ts now
        true).1.documents = db.documents ++ [r] := ⟨_, rfl⟩
    refine ⟨d, ?_, hid⟩
    rw [hdocs]
    exact List.mem_append_left _ hd

theorem noOrphan_update (db : DB) (documentId userId : String)
    (updates : List (String × JsValue)) (now : Nat) (h : noOrphanTags db) :
    noOrphanTags (updateDocument db documentId userId updates now).1 := by
  by_cases hl : (updates.filter (fun kv => allowedUpdates.contains kv.1)).length = 0
  · have heq : (updateDocument db documentId userId updates now).1 = db := by
      simp only [updateDocument, if_pos hl]
    rw [heq]
    exact h
  · have heq : (updateDocument db documentId userId updates now).1
        = { db with documents := db.documents.map (fun d =>
            if ownerMatch documentId userId d then
              { (updates.filter (fun kv => allowedUpdates.contains kv.1)).foldl applySet d with
                updated_at := now }
            else d) } := by
      simp only [updateDocument]
      rw [if_neg hl]
    rw [heq]
    intro t ht
    rcases h t ht with ⟨d, hd, hid⟩
    refine ⟨if ownerMatch documentId userId d then
        { (updates.filter (fun kv => allowedUpdates.contains kv.1)).foldl applySet d with
          updated_at := now }
      else d, List.mem_map_of_mem _ hd, ?_⟩
    by_cases hc : ownerMatch documentId userId d
    · rw [if_pos hc]
      show ((updates.filter (fun kv => allowedUpdates.contains kv.1)).foldl applySet d).id
        = t.document_id
      rw [foldl_applySet_id]
      exact hid
    · rw [if_neg hc]
      exact hid

theorem noOrphan_addTags (db : DB) (documentId userId : String) (tags : List String)
    (g : Nat → String) (h : noOrphanTags db) :
    noOrphanTags (addDocumentTags db documentId userId tags g).1 := by
  cases hg : getDocument db documentId userId with
  | error e =>
    have heq : (addDocumentTags db documentId userId tags g).1 = db := by
      simp only [addDocumentTags, hg]
    rw [heq]
    exact h
  | ok v =>
    have hfind := find_of_getDocument_ok hg
    have hmem := List.mem_of_find?_eq_some hfind
    have hown := List.find?_some hfind
    have hrowid : v.row.id = documentId := by
      unfold ownerMatch at hown
      exact eq_of_beq (Bool.and_elim_left hown)
    by_cases hpos : 0 < tags.length
    · have heq : (addDocumentTags db documentId userId tags g).1
          = { db with document_tags :=
              db.document_tags.filter (fun t => !(t.document_id == documentId))
                ++ tags.enum.map (fun p =>
                  ({ id := g p.1, document_id := documentId,
                     tag_name := jsTrim p.2 } : TagRow)) } := by
        simp only [addDocumentTags, hg]
        rw [if_pos hpos]
      rw [heq]
      intro t ht
      rcases List.mem_append.mp ht with ht' | ht'
      · rcases h t (List.mem_filter.mp ht').1 with ⟨d, hd, hid⟩
        exact ⟨d, hd, hid⟩
      · rcases List.mem_map.mp ht' with ⟨p, _, rfl⟩
        exact ⟨v.row, hmem, hrowid⟩
    · have heq : (addDocumentTags db documentId userId tags g).1
          = { db with document_tags :=
              db.document_tags.filter (fun t => !(t.document_id == documentId)) } := by
        simp only [addDocumentTags, hg]
        rw [if_neg hpos]
      rw [heq]
      intro t ht
      rcases h t (List.mem_filter.mp ht).1 with ⟨d, hd, hid⟩
      exact ⟨d, hd, hid⟩

theorem noOrphan_remove (db : DB) (documentId userId : String) (h : noOrphanTags db) :
    noOrphanTags (deleteDocument db documentId userId).1 := by
  cases hg : getDocument db documentId userId with
  | error e =>
    have heq : (deleteDocument db documentId userId).1 = db := by
      simp only [deleteDocument, hg]
    rw [heq]
    exact h
  | ok v =>
    have heq : (deleteDocument db documentId userId).1
        = { db with
            files := db.files.filter (fun f => !(f.1 == v.row.file_path))
            documents := db.documents.filter (fun d => !(ownerMatch documentId userId d))
            document_tags :=
              db.document_tags.filter (fun t => !(t.document_id == documentId)) } := by
      simp only [deleteDocument, hg, sqlDeleteDocumentCascade]
    rw [heq]
    intro t ht
    rcases List.mem_filter.mp ht with ⟨htmem, htne⟩
    have htne' : t.document_id ≠ documentId := by
      simpa using htne
    rcases h t htmem with ⟨d, hd, hid⟩
    refine ⟨d, List.mem_filter.mpr ⟨hd, ?_⟩, hid⟩
    unfold ownerMatch
    have : (d.id == documentId) = false := by
      simp only [beq_eq_false_iff_ne, ne_eq]
      rw [hid]
      exact htne'
    simp [this]

/-- C8 (confirmed, against the spec-modelled cascade): in every store state
reachable through the service's mutating operations, a tag row always
references a document that still has a metadata row — after
`deleteDocument` removes a document's metadata row, no tag rows for it
remain. -/
theorem reachable_no_orphan_tag_rows (ops : List StoreOp) : noOrphanTags (runOps ops) := by
  have step : ∀ (db : DB) (op : StoreOp), noOrphanTags db → noOrphanTags (applyStoreOp db op) := by
    intro db op h
    cases op with
    | save base email dat buf docId logId y m ts now w =>
      exact noOrphan_save db base email dat buf docId logId y m ts now w h
    | update docId uid ups now => exact noOrphan_update db docId uid ups now h
    | addTags docId uid tags g => exact noOrphan_addTags db docId uid tags g h
    | remove docId uid => exact noOrphan_remove db docId uid h
  have main : ∀ (l : List StoreOp) (db : DB), noOrphanTags db →
      noOrphanTags (l.foldl applyStoreOp db) := by
    intro l
    induction l with
    | nil => intro db h; exact h
    | cons op t ih =>
      intro db h
      rw [List.foldl_cons]
      exact ih _ (step db op h)
  refine main ops emptyDB ?_
  intro t ht
  simp [emptyDB] at ht

/-- C8 witness: after a save and a tag insert, the inserted tag row's
document still has its metadata row. -/
theorem reachable_no_orphan_tag_rows_instance :
    ∃ d ∈ (runOps
      [StoreOp.save "stored" "alice@example.com"
          { userId := "u1", title := "T", template := "rca",
            contentPreview := "", format := some "docx" }
          3 "y" "l1" "2026" "10" 1 1 true,
       StoreOp.addTags "y" "u1" ["a"] demoIdGen]).documents, d.id = "y" :=
  reachable_no_orphan_tag_rows
    [StoreOp.save "stored" "alice@example.com"
        { userId := "u1", title := "T", template := "rca",
          contentPreview := "", format := some "docx" }
        3 "y" "l1" "2026" "10" 1 1 true,
     StoreOp.addTags "y" "u1" ["a"] demoIdGen]
    { id := "tag-0", document_id := "y", tag_name := "a" } (by decide)

/-! ## Theorems: batch operations -/

theorem batchStep_foldl (userId action : String) (fav arch : JsValue) (now : Nat) :
    ∀ (ids : List String) (db : DB) (acc : List BatchItemResult),
      ((ids.foldl (batchStep userId action fav arch now) (db, acc)).2).map
          BatchItemResult.documentId
        = acc.map BatchItemResult.documentId ++ ids := by
  intro ids
  induction ids with
  | nil =>
    intro db acc
    simp
  | cons i t ih =>
    intro db acc
    rw [List.foldl_cons]
    have hstep : batchStep userId action fav arch now (db, acc) i
        = ((batchItem db userId action i fav arch now).1,
            acc ++ [{ documentId := i,
                      success := (batchItem db userId action i fav arch now).2 }]) := rfl
    rw [hstep, ih]
    simp

/-- C9 (confirmed): the batch route records one inline result per document
id — a failing item does not abort the remaining ones — and in particular a
`favorite` batch over `[x, y]` where `x` belongs to another user yields a
failure for `x` and a success for `y`. -/
theorem batch_isolates_item_failures :
    (∀ (db : DB) (userId action : String) (documentIds : List String)
        (dataFavorite dataArchived : JsValue) (now : Nat),
      ((batchOperation db userId action documentIds dataFavorite dataArchived now).2).map
          BatchItemResult.documentId = documentIds)
  ∧ (batchOperation demoDb "u1" "favorite" ["x", "y"] (JsValue.bool true)
        (JsValue.bool false) 7).2
      = [{ documentId := "x", success := false },
         { documentId := "y", success := true }] := by
  constructor
  · intro db userId action documentIds fav arch now
    have h := batchStep_foldl userId action fav arch now documentIds db []
    simpa [batchOperation] using h
  · decide

/-! ## Theorems: tag round-trip through GROUP_CONCAT and split -/

/-- Reference single-character comma split, used to reason about
`jsSplit ","`. -/
def splitComma : List Char → List (List Char)
  | [] => [[]]
  | c :: cs =>
    if c = ',' then [] :: splitComma cs
    else
      match splitComma cs with
      | [] => [[c]]
      | p :: ps => (c :: p) :: ps

/-- `joinComma` at the character level. -/
def joinCommaChars : List (List Char) → List Char
  | [] => []
  | [x] => x
  | x :: xs => x ++ ',' :: joinCommaChars xs

theorem splitComma_ne_nil (l : List Char) : splitComma l ≠ [] := by
  cases l with
  | nil => simp [splitComma]
  | cons c cs =>
    simp only [splitComma]
    split
    · simp
    · cases h : splitComma cs <;> simp

theorem splitComma_no_comma (l : List Char) (h : ',' ∉ l) : splitComma l = [l] := by
  induction l with
  | nil => rfl
  | cons c cs ih =>
    have hc : ¬ c = ',' := fun e => h (e ▸ List.mem_cons_self c cs)
    have ht : ',' ∉ cs := fun hm => h (List.mem_cons_of_mem _ hm)
    simp [splitComma, hc, ih ht]

theorem splitComma_append (x rest : List Char) (h : ',' ∉ x) :
    splitComma (x ++ ',' :: rest) = x :: splitComma rest := by
  induction x with
  | nil => simp [splitComma]
  | cons c t ih =>
    have hc : ¬ c = ',' := fun e => h (e ▸ List.mem_cons_self c t)
    have ht : ',' ∉ t := fun hm => h (List.mem_cons_of_mem _ hm)
    simp only [List.cons_append, splitComma, if_neg hc, List.append_eq, ih ht]

theorem splitComma_joinCommaChars (xs : List (List Char)) (hne : xs ≠ [])
    (h : ∀ x ∈ xs, ',' ∉ x) : splitComma (joinCommaChars xs) = xs := by
  induction xs with
  | nil => exact absurd rfl hne
  | cons x t ih =>
    cases t with
    | nil => simp [joinCommaChars, splitComma_no_comma x (h x (List.mem_cons_self x []))]
    | cons y r =>
      have hj : joinCommaChars (x :: y :: r) = x ++ ',' :: joinCommaChars (y :: r) := rfl
      rw [hj, splitComma_append x _ (h x (List.mem_cons_self _ _)),
        ih (by simp) (fun z hz => h z (List.mem_cons_of_mem _ hz))]

theorem jsSplitChars_comma :
    ∀ (fuel : Nat) (rest acc : List Char), rest.length < fuel →
      jsSplitChars [','] fuel acc rest
        = List.modifyHead (fun p => acc.reverse ++ p) (splitComma rest) := by
  intro fuel
  induction fuel with
  | zero =>
    intro rest acc h
    exact absurd h (Nat.not_lt_zero _)
  | succ n ih =>
    intro rest acc h
    cases rest with
    | nil =>
      obtain ⟨p, ps, hps⟩ : ∃ p ps, splitComma ([] : List Char) = p :: ps := ⟨[], [], rfl⟩
      simp [jsSplitChars, splitComma]
    | cons c cs =>
      have hlt : cs.length < n := Nat.lt_of_succ_lt_succ (by simpa using h)
      obtain ⟨p, ps, hps⟩ : ∃ p ps, splitComma cs = p :: ps := by
        cases hsc : splitComma cs with
        | nil => exact absurd hsc (splitComma_ne_nil cs)
        | cons p ps => exact ⟨p, ps, rfl⟩
      by_cases hc : c = ','
      · have hs : startsWithSep [','] (c :: cs) = true := by
          subst hc
          simp [startsWithSep]
        simp only [jsSplitChars, hs, if_true]
        have hdrop : List.drop (List.length [','] - 1) cs = cs := rfl
        rw [hdrop, ih cs [] hlt]
        simp [splitComma, hc, hps]
      · have hs : startsWithSep [','] (c :: cs) = false := by
          simp only [startsWithSep, Bool.and_true]
          exact beq_eq_false_iff_ne.mpr (fun e => hc e.symm)
        simp only [jsSplitChars, hs, Bool.false_eq_true, if_false]
        rw [ih cs (c :: acc) hlt, hps]
        simp [splitComma, hc, hps, List.append_assoc]

theorem jsSplit_comma (s : String) :
    jsSplit "," s = (splitComma s.data).map String.mk := by
  have h1 : (",").data = [','] := rfl
  unfold jsSplit
  rw [h1, jsSplitChars_comma (s.data.length + 1) s.data [] (Nat.lt_succ_self _)]
  obtain ⟨p, ps, hps⟩ : ∃ p ps, splitComma s.data = p :: ps := by
    cases hsc : splitComma s.data with
    | nil => exact absurd hsc (splitComma_ne_nil _)
    | cons p ps => exact ⟨p, ps, rfl⟩
  rw [hps]
  simp

theorem data_joinComma (ss : List String) :
    (joinComma ss).data = joinCommaChars (ss.map String.data) := by
  induction ss with
  | nil => rfl
  | cons x t ih =>
    cases t with
    | nil => rfl
    | cons y r =>
      have hj : joinComma (x :: y :: r) = x ++ "," ++ joinComma (y :: r) := rfl
      rw [hj, String.data_append, String.data_append, ih]
      have h1 : (",").data = [','] := rfl
      rw [h1]
      simp [joinCommaChars, List.append_assoc]

theorem jsSplit_joinComma (ss : List String) (hne : ss ≠ [])
    (h : ∀ s ∈ ss, ',' ∉ s.data) : jsSplit "," (joinComma ss) = ss := by
  rw [jsSplit_comma, data_joinComma,
    splitComma_joinCommaChars (ss.map String.data) (by simpa using hne)
      (by intro x hx; rcases List.mem_map.mp hx with ⟨s, hs, rfl⟩; exact h s hs)]
  rw [List.map_map]
  have hcomp : (String.mk ∘ String.data) = id := by
    funext s
    cases s
    rfl
  rw [hcomp, List.map_id]

theorem joinComma_ne_empty (ss : List String) (hne : ss ≠ []) (hns : ss ≠ [""]) :
    joinComma ss ≠ "" := by
  cases ss with
  | nil => exact absurd rfl hne
  | cons x t =>
    cases t with
    | nil =>
      have hx : x ≠ "" := fun e => hns (by rw [e])
      simpa [joinComma] using hx
    | cons y r =>
      intro e
      have hd : (joinComma (x :: y :: r)).data = [] := by rw [e]
      rw [data_joinComma] at hd
      have hj : joinCommaChars (x.data :: y.data :: (r.map String.data))
          = x.data ++ ',' :: joinCommaChars (y.data :: (r.map String.data)) := rfl
      simp only [List.map_cons, hj] at hd
      simp at hd

/-- C10 (amended): tags round-trip through the store exactly when the
trimmed tags contain no comma AND are not the single empty string:
`addDocumentTags` stores each tag trimmed in its own row, and the read path
comma-joins the rows and re-splits on `','`, so comma-free stored tags come
back unchanged — except that a lone whitespace-only tag concatenates to the
empty string, which the read path treats as "no tags" and returns `[]`; a
stored tag containing a comma comes back as several tags split at each
comma (e.g. `"a,b"` reads back as `["a", "b"]`). -/
theorem tags_roundtrip_comma_free (db : DB) (documentId userId : String)
    (tags : List String) (g : Nat → String) :
    (∀ v, getDocument db documentId userId = Except.ok v →
      (∀ t ∈ tags, ',' ∉ (jsTrim t).data) →
      tags.map jsTrim ≠ [""] →
      readTags (addDocumentTags db documentId userId tags g).1 documentId
        = tags.map jsTrim)
  ∧ readTags (addDocumentTags demoDb "y" "u1" ["a,b"] demoIdGen).1 "y" = ["a", "b"] := by
  constructor
  · intro v hok hnc hne
    have hnames := (addDocumentTags_state db documentId userId tags g v hok).2.2.1
    unfold readTags groupConcatTags
    rw [hnames]
    by_cases hnil : tags.map jsTrim = []
    · rw [hnil]
      rfl
    · rw [if_neg (joinComma_ne_empty _ hnil hne)]
      refine jsSplit_joinComma _ hnil ?_
      intro s hs
      rcases List.mem_map.mp hs with ⟨t, ht, rfl⟩
      exact hnc t ht
  · decide

/-- C10 witness: comma-free tags round-trip trimmed. -/
theorem tags_roundtrip_comma_free_instance :
    readTags (addDocumentTags demoDb "y" "u1" ["a", " b "] demoIdGen).1 "y" = ["a", "b"] := by
  have h := (tags_roundtrip_comma_free demoDb "y" "u1" ["a", " b "] demoIdGen).1
    { row := demoDoc, tags := [] } rfl (by decide) (by decide)
  exact h.trans (by decide)

/-- C10 counterexample: the single tag `""` is comma-free, yet after
storing it the read path returns `[]`, not `[""]` — the round-trip claimed
for every comma-free tag list fails. -/
theorem tags_roundtrip_empty_tag_false :
    (∀ t ∈ [""], ',' ∉ (jsTrim t).data)
  ∧ readTags (addDocumentTags demoDb "y" "u1" [""] demoIdGen).1 "y" = []
  ∧ [""].map jsTrim ≠ ([] : List String) := by
  refine ⟨by decide, by decide, by decide⟩

end DocWriter
